import Mathlib

/-!
Verification of the Bioprofile400 logger core (`bioprofile400.py`):
the status filter, the blank-line message framer of `main_core`, the
record parser `parse_message`, and the table assembly `build_table`.

Byte strings are modelled as `List Char` (the analyzer traffic is ASCII;
UTF-8 decoding with replacement is the identity on this model).  Python
list indexing `row[i]`, which raises `IndexError` when `i` is out of
range, is modelled by `pyGet`, and `parse_message` consequently returns
an `Except`: `.error ()` corresponds to the Python function raising.
`OrderedDict` is modelled as an association list in insertion order with
unique keys: assignment to an existing key updates it in place, a new
key is appended at the end.  The source stores the record number as
`str(sample_id)`; here the number is kept as a `Nat` in the record and
rendered with `natStr` when the table row is built, which yields the
same cells.
-/

namespace Bioprofile

/-- A decoded byte string. -/
abbrev Str := List Char

/-- One data chunk polled from the instrument (timestamps are never read
by the core logic and are omitted). -/
abbrev Chunk := List Char

/-! ### Fixed column layout (constants of `bioprofile400.py`) -/

def HEADER_ROW : Char := 'H'
def HEADER_ROW_TIME : Nat := 13

def NAME_ROW : Char := 'O'
def NAME_ROW_NAME_1 : Nat := 2
def NAME_ROW_NAME_2 : Nat := 3
def NAME_ROW_TYPE : Nat := 15

def ERROR_ROW : Char := 'C'
def ERROR_ROW_MESSAGE : Nat := 3

def ASSAY_ROW : Char := 'R'
def ASSAY_ROW_NAME : Nat := 2
def ASSAY_ROW_VALUE : Nat := 3
def ASSAY_ROW_UNITS : Nat := 4

/-! ### Low-level string helpers -/

/-- `line.split(b"|")`: split on every pipe, yielding `n + 1` fields for
`n` pipes; never empty. -/
def splitOnPipe : Str → List Str
  | [] => [[]]
  | c :: rest =>
    if c = '|' then [] :: splitOnPipe rest
    else
      match splitOnPipe rest with
      | [] => [[c]]
      | p :: ps => (c :: p) :: ps

/-- The whitespace set of Python `bytes.strip()`. -/
def isPyWs (c : Char) : Bool :=
  c = ' ' || c = '\t' || c = '\n' || c = '\r' || c = '\x0b' || c = '\x0c'

/-- `field.strip()`. -/
def pyStrip (s : Str) : Str :=
  ((s.dropWhile isPyWs).reverse.dropWhile isPyWs).reverse

/-- The row a line is split into:
`[field.strip().decode("utf-8", errors="replace") for field in line.split(b"|")]`
(decoding is the identity on this model). -/
def lineFields (line : Str) : List Str :=
  (splitOnPipe line).map pyStrip

/-- `_is(row, kind)` = `row[0].endswith(kind)` for a one-character
`kind`.  `split` always yields at least one field, so `row[0]` never
raises. -/
def rowIs (row : List Str) (kind : Char) : Bool :=
  match row.head? with
  | some f => f.getLast? == some kind
  | none => false

/-- Python `row[i]`: `.ok` the element, `.error` = `IndexError`. -/
def pyGet {α : Type} (row : List α) (i : Nat) : Except Unit α :=
  match row[i]? with
  | some v => Except.ok v
  | none => Except.error ()

/-- `parse_timestamp`: fixed `YYYYMMDDHHMMSS` slicing (pure slicing,
never raises, whatever the length of `value`). -/
def parse_timestamp (value : Str) : Str :=
  value.take 4 ++ '-' :: ((value.drop 4).take 2) ++ '-' :: ((value.drop 6).take 2)
    ++ ' ' :: ((value.drop 8).take 2) ++ ':' :: ((value.drop 10).take 2)
    ++ ':' :: ((value.drop 12).take 2)

/-- `str(n)` for the record number. -/
def natStr (n : Nat) : Str := (Nat.repr n).data

/-! ### Ordered-dictionary model -/

/-- `OrderedDict` assignment `d[k] = v`: update in place if the key is
present, append at the end otherwise. -/
def odSet {β : Type} (k : Str) (v : β) : List (Str × β) → List (Str × β)
  | [] => [(k, v)]
  | (k', v') :: rest => if k' = k then (k, v) :: rest else (k', v') :: odSet k v rest

/-- `d.get(k)` on the association list. -/
def odLookup {β : Type} (k : Str) : List (Str × β) → Option β
  | [] => none
  | (k', v) :: rest => if k' = k then some v else odLookup k rest

/-! ### The record parser (`parse_message`) -/

/-- One assay entry: `{"value": ..., "units": ...}`. -/
structure Assay where
  value : Str
  units : Str
deriving DecidableEq, Repr

/-- One sample dictionary produced by `_new` and filled by the parse
loop. -/
structure Sample where
  group : Str
  id : Nat
  name_1 : Option Str
  name_2 : Option Str
  type : Option Str
  assays : List (Str × Assay)
  errors : List Str
  timestamp : Option Str
deriving DecidableEq, Repr

/-- `_new(sample_id)`. -/
def newSample (group : Str) (sample_id : Nat) : Sample :=
  { group := group, id := sample_id, name_1 := none, name_2 := none,
    type := none, assays := [], errors := [], timestamp := none }

/-- `sample["assays"] or sample["errors"]`: a record is retained only
when it carries at least one assay or at least one error. -/
def sampleNonEmpty (s : Sample) : Bool :=
  !s.assays.isEmpty || !s.errors.isEmpty

/-- The body of `parse_message`'s loop over the message lines, with the
running `sample_id`, the in-progress `sample` and the accumulated
`samples`; the final flush is the `[]` case. -/
def parseLines (group : Str) : List Str → Nat → Sample → List Sample →
    Except Unit (List Sample)
  | [], _, sample, samples =>
    Except.ok (if sampleNonEmpty sample then samples ++ [sample] else samples)
  | line :: rest, sample_id, sample, samples =>
    let row := lineFields line
    if rowIs row HEADER_ROW then do
      let samples := if sampleNonEmpty sample then samples ++ [sample] else samples
      let t ← pyGet row HEADER_ROW_TIME
      parseLines group rest (sample_id + 1)
        { newSample group (sample_id + 1) with timestamp := some (parse_timestamp t) }
        samples
    else if rowIs row NAME_ROW then do
      let n1 ← pyGet row NAME_ROW_NAME_1
      let n2 ← pyGet row NAME_ROW_NAME_2
      let ty ← pyGet row NAME_ROW_TYPE
      parseLines group rest sample_id
        { sample with name_1 := some n1, name_2 := some n2, type := some ty } samples
    else if rowIs row ERROR_ROW then do
      let e ← pyGet row ERROR_ROW_MESSAGE
      parseLines group rest sample_id
        { sample with errors := sample.errors ++ [e] } samples
    else if rowIs row ASSAY_ROW then do
      let nm ← pyGet row ASSAY_ROW_NAME
      let v ← pyGet row ASSAY_ROW_VALUE
      let u ← pyGet row ASSAY_ROW_UNITS
      let assay := nm.filter (fun c => c != '^')
      parseLines group rest sample_id
        { sample with assays := odSet assay ⟨v, u⟩ sample.assays } samples
    else
      parseLines group rest sample_id sample samples

/-- `parse_message(message, group)`: `.error ()` models the Python
function raising (`IndexError` on a too-short dispatched row). -/
def parse_message (message : List Str) (group : Str) : Except Unit (List Sample) :=
  parseLines group message 0 (newSample group 0) []

/-! ### The table builder (`build_table`) -/

/-- A unit entry in the assay-discovery dictionary: the first-seen units
string, or `OddResult("???")` after a conflict. -/
inductive UnitsCell where
  | units : Str → UnitsCell
  | odd : UnitsCell
deriving DecidableEq, Repr

/-- An output cell: a plain value (string or `None`), an `OddResult`, or
an `ErrorResult`. -/
inductive Cell where
  | plain : Option Str → Cell
  | odd : Str → Cell
  | err : Option Str → Cell
deriving DecidableEq, Repr

/-- One step of assay-unit discovery:
`if assays.setdefault(key, units) != units: assays[key] = OddResult("???")`.
(`OddResult("???")` never compares equal to a units string.) -/
def unitStep (acc : List (Str × UnitsCell)) (kv : Str × Assay) : List (Str × UnitsCell) :=
  match odLookup kv.1 acc with
  | none => acc ++ [(kv.1, UnitsCell.units kv.2.units)]
  | some (UnitsCell.units u) =>
    if u = kv.2.units then acc else odSet kv.1 UnitsCell.odd acc
  | some UnitsCell.odd => odSet kv.1 UnitsCell.odd acc

/-- The assay/units discovery loop at the top of `build_table`. -/
def discoverUnits (rows : List Sample) : List (Str × UnitsCell) :=
  rows.foldl (fun acc row => row.assays.foldl unitStep acc) []

/-- Classification of one raw assay value (`None` when the record lacks
the assay).  Returns the cell and whether the assay was flagged odd:
a value starting with `?` becomes `OddResult(value[1:])` (and is then
never compared equal to `"****"`); the literal `****` becomes
`ErrorResult(None)`; anything else, including the empty string and
`None`, passes through as a plain cell. -/
def qualityCell (value : Option Str) : Cell × Bool :=
  match value with
  | some s =>
    if s ≠ [] ∧ s.take 1 = ['?'] then (Cell.odd (s.drop 1), true)
    else if s = "****".data then (Cell.err none, false)
    else (Cell.plain (some s), false)
  | none => (Cell.plain none, false)

/-- The per-record loop `for key in assays`: one cell per discovered
assay column, plus the `questionable_assays` names in column order. -/
def assayCells (cols : List (Str × UnitsCell)) (r : Sample) : List Cell × List Str :=
  match cols with
  | [] => ([], [])
  | (k, _) :: rest =>
    let q := qualityCell ((odLookup k r.assays).map Assay.value)
    (q.1 :: (assayCells rest r).1,
     (if q.2 then [k] else []) ++ (assayCells rest r).2)

/-- `"Odd results for %s" % (", ".join(questionable_assays))`. -/
def oddSummary (qs : List Str) : Str :=
  ("Odd results for ").data ++ List.intercalate ((", ").data) qs

/-- One data row of the table. -/
def buildRow (cols : List (Str × UnitsCell)) (row : Sample) : List Cell :=
  let base : List Cell :=
    [Cell.plain (some row.group), Cell.plain (some (natStr row.id)),
     Cell.plain row.type, Cell.plain row.name_1, Cell.plain row.name_2,
     Cell.plain row.timestamp]
  base ++ (assayCells cols row).1 ++ row.errors.map (fun e => Cell.err (some e)) ++
    (if (assayCells cols row).2.isEmpty then []
     else [Cell.odd (oddSummary (assayCells cols row).2)])

/-- A discovered unit entry as it appears in the second header row. -/
def unitsHeaderCell : UnitsCell → Cell
  | UnitsCell.units u => Cell.plain (some u)
  | UnitsCell.odd => Cell.odd (("???").data)

/-- `build_table(rows)`: two header rows followed by one row per
record. -/
def build_table (rows : List Sample) : List (List Cell) :=
  let assays := discoverUnits rows
  let header_1 : List Cell :=
    [Cell.plain (some (("Filename").data)), Cell.plain (some (("#").data)),
     Cell.plain (some (("Type").data)), Cell.plain (some (("ID").data)),
     Cell.plain (some (("Cup").data)), Cell.plain (some (("Timestamp").data))]
    ++ assays.map (fun kv => Cell.plain (some kv.1))
  let header_2 : List Cell :=
    [Cell.plain none, Cell.plain none, Cell.plain none,
     Cell.plain none, Cell.plain none, Cell.plain none]
    ++ assays.map (fun kv => unitsHeaderCell kv.2)
  header_1 :: header_2 :: rows.map (buildRow assays)

/-! ### The status filter -/

/-- Does `t` start `s`? -/
def startsW (t s : Str) : Bool := decide (s.take t.length = t)

/-- Python `t in s` (substring test). -/
def occursIn (t : Str) : Str → Bool
  | [] => decide (t = [])
  | c :: rest => startsW t (c :: rest) || occursIn t rest

/-- One left-to-right non-overlapping replacement pass of
`s.replace(t, b"")`, fuelled by the length of `s` (each step consumes at
least one character of `s` for non-empty `t`). -/
def replacePass (t : Str) : Str → Nat → Str
  | s, 0 => s
  | [], _ + 1 => []
  | c :: rest, fuel + 1 =>
    if startsW t (c :: rest) then replacePass t ((c :: rest).drop t.length) fuel
    else c :: replacePass t rest fuel

/-- `data.replace(msg, b"")`. -/
def pyReplaceAll (t s : Str) : Str := replacePass t s s.length

/-- The three status tokens of the bioprofiler, in source order. -/
def STATUS_MESSAGES : List Str :=
  [("NOT RDY!EOD\r\n").data, ("BUSY!EOD\r\n").data, ("READY!EOD\r\n").data]

/-- The status-stripping loop of `main_core`:
`for msg in STATUS_MESSAGES: if msg in data: data = data.replace(msg, b"")`. -/
def statusFilter (data : Str) : Str :=
  STATUS_MESSAGES.foldl (fun d msg => if occursIn msg d then pyReplaceAll msg d else d) data

/-! ### The message framer (`main_core` loop state) -/

/-- The framer's per-iteration state: the accumulated `message` and the
`blank_line_count` run counter. -/
structure FramerState where
  message : List Chunk
  blank_line_count : Nat
deriving DecidableEq, Repr

/-- What one loop iteration does: the next state, the message the
iteration finished (cleared), and the message it handed onward to
`parse_message` (which happens only when `len(message) > 3`). -/
structure StepResult where
  state : FramerState
  finished : Option (List Chunk)
  parsed : Option (List Chunk)
deriving DecidableEq, Repr

/-- One iteration of the `main_core` framing loop on an
(already status-filtered) data chunk.  Note that the source does not
reset `blank_line_count` when a message is finished; the counter keeps
growing over a longer blank run, which is harmless because the
accumulator is then empty. -/
def framerStep (s : FramerState) (data : Chunk) : StepResult :=
  if !data.isEmpty then
    ⟨⟨s.message ++ [data], 0⟩, none, none⟩
  else
    let blank_line_count := s.blank_line_count + 1
    if blank_line_count < 3 then
      ⟨⟨s.message, blank_line_count⟩, none, none⟩
    else if !s.message.isEmpty then
      ⟨⟨[], blank_line_count⟩, some s.message,
        if 3 < s.message.length then some s.message else none⟩
    else
      ⟨⟨s.message, blank_line_count⟩, none, none⟩

/-- The framer's start state. -/
def framerInit : FramerState := ⟨[], 0⟩

/-- The framing loop over a whole chunk sequence, collecting every
finished message and every message handed to the parser. -/
structure RunResult where
  state : FramerState
  finished : List (List Chunk)
  parsed : List (List Chunk)
deriving DecidableEq, Repr

def runFramer (s : FramerState) : List Chunk → RunResult
  | [] => ⟨s, [], []⟩
  | c :: cs =>
    let r := framerStep s c
    let rest := runFramer r.state cs
    ⟨rest.state, r.finished.toList ++ rest.finished, r.parsed.toList ++ rest.parsed⟩

/-- The per-step finished-message outputs of the framing loop, one entry
per input chunk. -/
def framerOutputs (s : FramerState) : List Chunk → List (Option (List Chunk))
  | [] => []
  | c :: cs => (framerStep s c).finished :: framerOutputs (framerStep s c).state cs

/-! ### Definitions used by the theorem statements -/

/-- A line whose `|`-split row is long enough for every fixed column
position its dispatch marker requires (lines with other markers have no
required positions). -/
def wellFormedLine (line : Str) : Prop :=
  (rowIs (lineFields line) HEADER_ROW = true → HEADER_ROW_TIME < (lineFields line).length) ∧
  (rowIs (lineFields line) NAME_ROW = true → NAME_ROW_TYPE < (lineFields line).length) ∧
  (rowIs (lineFields line) ERROR_ROW = true → ERROR_ROW_MESSAGE < (lineFields line).length) ∧
  (rowIs (lineFields line) ASSAY_ROW = true → ASSAY_ROW_UNITS < (lineFields line).length)

instance wellFormedLine.decidable (line : Str) : Decidable (wellFormedLine line) := by
  unfold wellFormedLine
  infer_instance

/-- The rows of a message's header-dispatched lines, in order. -/
def headerRows (message : List Str) : List (List Str) :=
  (message.map lineFields).filter (fun row => rowIs row HEADER_ROW)

/-- How many lines of the message dispatch as headers. -/
def headerCount (message : List Str) : Nat := (headerRows message).length

/-- The lines of the message that precede its first header-dispatched
line. -/
def strayLeadIn (message : List Str) : List Str :=
  message.takeWhile (fun l => !(rowIs (lineFields l) HEADER_ROW))

/-- The assay columns a record gets flagged on: its raw value for the
column exists, is non-empty and starts with `?`. -/
def flaggedNames (cols : List (Str × UnitsCell)) (r : Sample) : List Str :=
  cols.filterMap (fun kv =>
    match odLookup kv.1 r.assays with
    | some a => if a.value ≠ [] ∧ a.value.take 1 = ['?'] then some kv.1 else none
    | none => none)

/-- Every units string reported for assay `a`, in the traversal order of
`build_table`'s discovery loop (records in order, each record's assays
in insertion order). -/
def unitsSeenPairs (a : Str) (l : List (Str × Assay)) : List Str :=
  (l.filter (fun kv => kv.1 == a)).map (fun kv => kv.2.units)

/-- All (assay, entry) pairs of a record list, in discovery-traversal
order. -/
def allPairs (rows : List Sample) : List (Str × Assay) :=
  rows.foldr (fun r acc => r.assays ++ acc) []

/-- The units strings seen for assay `a` across a record list. -/
def unitsSeen (a : Str) (rows : List Sample) : List Str :=
  unitsSeenPairs a (allPairs rows)

/-- What unit-discovery holds for a key, given its current entry and the
units strings still to be folded in: the first-seen string if every
later one agrees with it, the ambiguous marker otherwise. -/
def unitResult (cur : Option UnitsCell) (vs : List Str) : Option UnitsCell :=
  match cur, vs with
  | none, [] => none
  | none, u :: us =>
    some (if us.all (fun w => w == u) then UnitsCell.units u else UnitsCell.odd)
  | some (UnitsCell.units u), vs =>
    some (if vs.all (fun w => w == u) then UnitsCell.units u else UnitsCell.odd)
  | some UnitsCell.odd, _ => some UnitsCell.odd

/-! ### Concrete fixtures for counterexamples and end-to-end runs -/

/-- The end-to-end message with the result lines exactly as the claim
writes them (`R|^Glucose|5.5|mg/dL`: no sequence field, so the units
position 4 is out of range). -/
def msg5asClaimed : List Str :=
  [("H|1|2|3|4|5|6|7|8|9|10|11|12|20230615093000").data,
   ("O|^|Alice|Bob|f4|f5|f6|f7|f8|f9|f10|f11|f12|f13|f14|TypeX").data,
   ("R|^Glucose|5.5|mg/dL").data,
   ("R|^?Lactate|?1.2|mmol/L").data]

/-- The end-to-end message with a sequence field inserted in each result
line, so that name/value/units sit at positions 2/3/4. -/
def msg5 : List Str :=
  [("H|1|2|3|4|5|6|7|8|9|10|11|12|20230615093000").data,
   ("O|^|Alice|Bob|f4|f5|f6|f7|f8|f9|f10|f11|f12|f13|f14|TypeX").data,
   ("R|1|^Glucose|5.5|mg/dL").data,
   ("R|2|^?Lactate|?1.2|mmol/L").data]

/-- The record `msg5` parses to (note the assay key `?Lactate`: only `^`
characters are stripped from the name field `^?Lactate`). -/
def rec5 : Sample :=
  { group := ('g') :: [], id := 1,
    name_1 := some (("Alice").data), name_2 := some (("Bob").data),
    type := some (("TypeX").data),
    assays := [((("Glucose").data), ⟨("5.5").data, ("mg/dL").data⟩),
               ((("?Lactate").data), ⟨("?1.2").data, ("mmol/L").data⟩)],
    errors := [], timestamp := some (("2023-06-15 09:30:00").data) }

/-- The table built from `rec5`. -/
def tbl5 : List (List Cell) :=
  [[Cell.plain (some (("Filename").data)), Cell.plain (some (("#").data)),
    Cell.plain (some (("Type").data)), Cell.plain (some (("ID").data)),
    Cell.plain (some (("Cup").data)), Cell.plain (some (("Timestamp").data)),
    Cell.plain (some (("Glucose").data)), Cell.plain (some (("?Lactate").data))],
   [Cell.plain none, Cell.plain none, Cell.plain none,
    Cell.plain none, Cell.plain none, Cell.plain none,
    Cell.plain (some (("mg/dL").data)), Cell.plain (some (("mmol/L").data))],
   [Cell.plain (some (('g') :: [])), Cell.plain (some (('1') :: [])),
    Cell.plain (some (("TypeX").data)), Cell.plain (some (("Alice").data)),
    Cell.plain (some (("Bob").data)), Cell.plain (some (("2023-06-15 09:30:00").data)),
    Cell.plain (some (("5.5").data)), Cell.odd (("1.2").data),
    Cell.odd (("Odd results for ?Lactate").data)]]

/-- A record whose single assay `A` carries the raw value `?****`. -/
def recQ : Sample :=
  { group := ('g') :: [], id := 1, name_1 := none, name_2 := none,
    type := none, assays := [((('A') :: []), ⟨("?****").data, ('u') :: []⟩)],
    errors := [], timestamp := none }

/-- A single-chunk message for the framer counterexample. -/
def chunkX : Chunk := ('x') :: []

/-- The table built from `recQ`. -/
def tblQ : List (List Cell) :=
  [[Cell.plain (some (("Filename").data)), Cell.plain (some (("#").data)),
    Cell.plain (some (("Type").data)), Cell.plain (some (("ID").data)),
    Cell.plain (some (("Cup").data)), Cell.plain (some (("Timestamp").data)),
    Cell.plain (some (('A') :: []))],
   [Cell.plain none, Cell.plain none, Cell.plain none,
    Cell.plain none, Cell.plain none, Cell.plain none,
    Cell.plain (some (('u') :: []))],
   [Cell.plain (some (('g') :: [])), Cell.plain (some (('1') :: [])),
    Cell.plain none, Cell.plain none, Cell.plain none, Cell.plain none,
    Cell.odd (("****").data), Cell.odd (("Odd results for A").data)]]

/-! ## Helper lemmas -/

theorem exceptBind_ok {α β : Type} (a : α) (f : α → Except Unit β) :
    (Except.ok a >>= f) = f a := rfl

theorem exceptBind_err {α β : Type} (e : Unit) (f : α → Except Unit β) :
    (Except.error e >>= f) = Except.error e := rfl

theorem bind_eq_ok {α β : Type} {x : Except Unit α} {f : α → Except Unit β}
    {out : β} (h : (x >>= f) = Except.ok out) :
    ∃ a, x = Except.ok a ∧ f a = Except.ok out := by
  cases x with
  | error e => rw [exceptBind_err] at h; exact absurd h (by simp)
  | ok a => exact ⟨a, rfl, h⟩

theorem pyGet_lt {α : Type} (l : List α) (i : Nat) (h : i < l.length) :
    pyGet l i = Except.ok l[i] := by
  simp [pyGet, List.getElem?_eq_getElem h]

theorem framerStep_data (s : FramerState) (data : Chunk) (h : data ≠ []) :
    framerStep s data = ⟨⟨s.message ++ [data], 0⟩, none, none⟩ := by
  cases data with
  | nil => exact absurd rfl h
  | cons c cs => rfl

theorem framerStep_blank_low (s : FramerState) (h : s.blank_line_count + 1 < 3) :
    framerStep s [] = ⟨⟨s.message, s.blank_line_count + 1⟩, none, none⟩ := by
  simp [framerStep, h]

theorem framerStep_finish (s : FramerState) (h3 : ¬ s.blank_line_count + 1 < 3)
    (hm : s.message ≠ []) :
    framerStep s [] = ⟨⟨[], s.blank_line_count + 1⟩, some s.message,
      if 3 < s.message.length then some s.message else none⟩ := by
  simp [framerStep, h3, hm]

/-! ## The claims -/

/-- C1, counterexample: `parse_message` does raise on a malformed line:
the one-line message `H` dispatches as a header but its row has a single
field, so the fixed time position 13 is an `IndexError` (modelled as
`Except.error`), not a best-effort record list. -/
theorem c1_counterexample :
    parse_message [('H') :: []] (('g') :: []) = Except.error () := rfl

/-- C2, counterexample: a non-empty completed message IS silently
dropped when it has at most 3 lines.  Feeding the framer one data chunk
and three empty chunks finishes the one-line message, but hands nothing
onward to the record-parser pipeline. -/
theorem c2_counterexample :
    (runFramer framerInit [chunkX, [], [], []]).finished = [[chunkX]] ∧
    (runFramer framerInit [chunkX, [], [], []]).parsed = [] :=
  ⟨rfl, rfl⟩

/-- C2, amended: when the empty-run counter reaches 3 while the
accumulated message is non-empty, the message is finished and the
accumulator cleared (the framer returns to idle), but it is handed
onward to the record parser only when it contains more than 3 lines;
shorter messages are discarded without being parsed. -/
theorem c2_amended_emit (msg : List Chunk) (h : msg ≠ []) :
    framerStep ⟨msg, 2⟩ [] =
      ⟨⟨[], 3⟩, some msg, if 3 < msg.length then some msg else none⟩ := by
  simpa using framerStep_finish ⟨msg, 2⟩ (fun hlt => by simp at hlt) h

/-- Witness for `c2_amended_emit` at a concrete one-line message. -/
theorem c2_amended_emit_witness :
    framerStep ⟨[chunkX], 2⟩ [] = ⟨⟨[], 3⟩, some [chunkX], none⟩ := by
  simpa using c2_amended_emit [chunkX] (by simp)

/-- C5, counterexample: on the message with the claim's exact result
lines (`R|^Glucose|5.5|mg/dL` and `R|^?Lactate|?1.2|mmol/L`, which lack
the sequence field, so the units position 4 is out of range),
`parse_message` raises instead of returning the described record. -/
theorem c5_counterexample :
    parse_message msg5asClaimed (('g') :: []) = Except.error () := rfl

/-- C5, amended: with a sequence field inserted in each result line
(`R|1|^Glucose|5.5|mg/dL`, `R|2|^?Lactate|?1.2|mmol/L`), the message
parses to exactly one retained record with timestamp
`2023-06-15 09:30:00`, name1 `Alice`, name2 `Bob`, sample type `TypeX`,
assay `Glucose` = 5.5 mg/dL and assay `?Lactate` (the `^`-stripped form
of the name field `^?Lactate`) with raw value `?1.2` in mmol/L; the
table row has a Plain cell `5.5` for Glucose, an Odd cell `1.2` for
`?Lactate`, and a trailing Odd-tagged summary cell
`Odd results for ?Lactate`. -/
theorem c5_amended_end_to_end :
    parse_message msg5 (('g') :: []) = Except.ok [rec5] ∧
    build_table [rec5] = tbl5 :=
  ⟨rfl, rfl⟩

/-- C7, counterexample: the trailing odd-summary cell is an Odd-tagged
cell (`OddResult`), not a Plain cell: for the record `recQ` with flagged
assay `A`, the data row's last cell is `Cell.odd`. -/
theorem c7_counterexample :
    ((build_table [recQ])[2]?.bind List.getLast?) =
      some (Cell.odd (("Odd results for A").data)) := rfl

/-- C9, counterexample: removal is a single left-to-right pass per
token, so an occurrence that only appears after surrounding bytes are
joined by a removal is NOT removed: filtering
`BUS BUSY!EOD\r\n Y!EOD\r\n` (concatenated) leaves exactly
`BUSY!EOD\r\n`, which still contains the `BUSY!EOD\r\n` token. -/
theorem c9_counterexample :
    statusFilter (("BUSBUSY!EOD\r\nY!EOD\r\n").data) = ("BUSY!EOD\r\n").data ∧
    occursIn (("BUSY!EOD\r\n").data)
      (statusFilter (("BUSBUSY!EOD\r\nY!EOD\r\n").data)) = true :=
  ⟨rfl, rfl⟩

/-- C9, amended: on input containing no occurrence of any of the three
status tokens, the Status Filter is the identity; each token is removed
by one left-to-right replacement pass, and occurrences formed by joining
bytes around a removal may remain in the residual. -/
theorem c9_amended_filter (d : Str)
    (h : ∀ t ∈ STATUS_MESSAGES, occursIn t d = false) :
    statusFilter d = d := by
  have h1 : occursIn (("NOT RDY!EOD\r\n").data) d = false :=
    h _ (by simp [STATUS_MESSAGES])
  have h2 : occursIn (("BUSY!EOD\r\n").data) d = false :=
    h _ (by simp [STATUS_MESSAGES])
  have h3 : occursIn (("READY!EOD\r\n").data) d = false :=
    h _ (by simp [STATUS_MESSAGES])
  simp [statusFilter, STATUS_MESSAGES, h1, h2, h3]

/-- Witness for `c9_amended_filter` on a token-free byte string. -/
theorem c9_amended_filter_witness :
    statusFilter (('a') :: []) = ('a') :: [] :=
  c9_amended_filter (('a') :: []) (by decide)

/-- C10: in `build_table`'s value classification the odd-marker check
precedes the error-token check: any present raw value starting with `?`
(so in particular `?****`) yields an Odd cell carrying the rest of the
value and is flagged for the row's odd summary; an ErrorTag cell arises
exactly when the raw value is the literal `****` with no leading `?`.
Concretely, the record `recQ` with raw value `?****` produces an Odd
cell `****` and the summary `Odd results for A`, never an ErrorTag. -/
theorem c10_odd_before_error :
    (∀ s : Str, qualityCell (some ('?' :: s)) = (Cell.odd s, true)) ∧
    (∀ (v : Option Str) (c : Option Str) (b : Bool),
      qualityCell v = (Cell.err c, b) ↔
        v = some (("****").data) ∧ c = none ∧ b = false) ∧
    build_table [recQ] = tblQ := by
  refine ⟨?_, ?_, rfl⟩
  · intro s
    simp [qualityCell, List.take]
  · intro v c b
    cases v with
    | none => simp [qualityCell]
    | some s =>
      simp only [qualityCell]
      split
      case isTrue h =>
        constructor
        · intro hcontra
          simp at hcontra
        · rintro ⟨hv, -, -⟩
          injection hv with hv
          subst hv
          exact absurd h.2 (by decide)
      case isFalse h =>
        split
        case isTrue h2 =>
          subst h2
          simp [eq_comm]
        case isFalse h2 =>
          constructor
          · intro hcontra
            simp at hcontra
          · rintro ⟨hv, -, -⟩
            injection hv with hv
            exact absurd hv h2

/-- Witness for `c10_odd_before_error` at the raw value `?****`. -/
theorem c10_odd_before_error_witness :
    qualityCell (some (("?****").data)) = (Cell.odd (("****").data), true) :=
  c10_odd_before_error.1 (("****").data)

/-- The parse loop cannot raise while every remaining line is
well-formed, whatever the loop state. -/
theorem parseLines_ok_of_wf (group : Str) :
    ∀ (lines : List Str), (∀ l ∈ lines, wellFormedLine l) →
    ∀ (sid : Nat) (sample : Sample) (samples : List Sample),
    ∃ out, parseLines group lines sid sample samples = Except.ok out := by
  intro lines
  induction lines with
  | nil =>
    intro _ sid sample samples
    exact ⟨_, rfl⟩
  | cons line rest ih =>
    intro hwf sid sample samples
    have hline := hwf line (by simp)
    have hrest : ∀ l ∈ rest, wellFormedLine l := fun l hl => hwf l (by simp [hl])
    by_cases hH : rowIs (lineFields line) HEADER_ROW = true
    · have hlen : HEADER_ROW_TIME < (lineFields line).length := hline.1 hH
      simp only [parseLines, hH, if_true, pyGet_lt _ _ hlen, exceptBind_ok]
      exact ih hrest _ _ _
    · by_cases hO : rowIs (lineFields line) NAME_ROW = true
      · have hlen : NAME_ROW_TYPE < (lineFields line).length := hline.2.1 hO
        have h1 : NAME_ROW_NAME_1 < (lineFields line).length :=
          Nat.lt_trans (show NAME_ROW_NAME_1 < NAME_ROW_TYPE by decide) hlen
        have h2 : NAME_ROW_NAME_2 < (lineFields line).length :=
          Nat.lt_trans (show NAME_ROW_NAME_2 < NAME_ROW_TYPE by decide) hlen
        simp only [parseLines, hH, hO, if_true, pyGet_lt _ _ h1, pyGet_lt _ _ h2,
          pyGet_lt _ _ hlen, exceptBind_ok]
        exact ih hrest _ _ _
      · by_cases hC : rowIs (lineFields line) ERROR_ROW = true
        · have hlen : ERROR_ROW_MESSAGE < (lineFields line).length := hline.2.2.1 hC
          simp only [parseLines, hH, hO, hC, if_true, pyGet_lt _ _ hlen, exceptBind_ok]
          exact ih hrest _ _ _
        · by_cases hR : rowIs (lineFields line) ASSAY_ROW = true
          · have hlen : ASSAY_ROW_UNITS < (lineFields line).length := hline.2.2.2 hR
            have h1 : ASSAY_ROW_NAME < (lineFields line).length :=
              Nat.lt_trans (show ASSAY_ROW_NAME < ASSAY_ROW_UNITS by decide) hlen
            have h2 : ASSAY_ROW_VALUE < (lineFields line).length :=
              Nat.lt_trans (show ASSAY_ROW_VALUE < ASSAY_ROW_UNITS by decide) hlen
            simp only [parseLines, hH, hO, hC, hR, if_true, pyGet_lt _ _ h1,
              pyGet_lt _ _ h2, pyGet_lt _ _ hlen, exceptBind_ok]
            exact ih hrest _ _ _
          · simp only [parseLines, hH, hO, hC, hR]
            exact ih hrest _ _ _

/-- C1, amended: `parse_message` never raises provided every line that
dispatches as H, O, C or R has enough `|`-separated fields for the fixed
column positions its marker requires (14, 16, 4 and 5 fields
respectively); lines with unknown markers are ignored without error.
With a too-short dispatched row it raises `IndexError` instead
(`c1_counterexample`). -/
theorem c1_amended_no_raise (message : List Str) (group : Str)
    (h : ∀ l ∈ message, wellFormedLine l) :
    ∃ samples, parse_message message group = Except.ok samples :=
  parseLines_ok_of_wf group message h 0 _ []

/-- Witness for `c1_amended_no_raise` on the concrete message `msg5`. -/
theorem c1_amended_no_raise_witness :
    (∀ l ∈ msg5, wellFormedLine l) ∧
    ∃ samples, parse_message msg5 (('g') :: []) = Except.ok samples :=
  ⟨by decide, c1_amended_no_raise msg5 (('g') :: []) (by decide)⟩

/-- Flushing the in-progress record preserves "every accumulated record
is non-empty": the flush itself checks exactly that condition. -/
theorem flush_keep (sample : Sample) (samples : List Sample)
    (hacc : ∀ r ∈ samples, sampleNonEmpty r = true) :
    ∀ r ∈ (if sampleNonEmpty sample then samples ++ [sample] else samples),
      sampleNonEmpty r = true := by
  intro r hr
  split at hr
  case isTrue h =>
    rcases List.mem_append.1 hr with h1 | h1
    · exact hacc r h1
    · rw [List.mem_singleton.1 h1]; exact h
  case isFalse h => exact hacc r hr

/-- Every record the parse loop returns is non-empty, provided every
already-accumulated one is. -/
theorem parseLines_keep (group : Str) :
    ∀ (lines : List Str) (sid : Nat) (sample : Sample) (samples out : List Sample),
    parseLines group lines sid sample samples = Except.ok out →
    (∀ r ∈ samples, sampleNonEmpty r = true) →
    ∀ r ∈ out, sampleNonEmpty r = true := by
  intro lines
  induction lines with
  | nil =>
    intro sid sample samples out hok hacc
    simp only [parseLines, Except.ok.injEq] at hok
    subst hok
    exact flush_keep sample samples hacc
  | cons line rest ih =>
    intro sid sample samples out hok hacc
    by_cases hH : rowIs (lineFields line) HEADER_ROW = true
    · simp only [parseLines, hH, if_true] at hok
      obtain ⟨t, -, hok⟩ := bind_eq_ok hok
      exact ih _ _ _ _ hok (flush_keep sample samples hacc)
    · by_cases hO : rowIs (lineFields line) NAME_ROW = true
      · simp only [parseLines, hH, hO, if_true] at hok
        obtain ⟨n1, -, hok⟩ := bind_eq_ok hok
        obtain ⟨n2, -, hok⟩ := bind_eq_ok hok
        obtain ⟨ty, -, hok⟩ := bind_eq_ok hok
        exact ih _ _ _ _ hok hacc
      · by_cases hC : rowIs (lineFields line) ERROR_ROW = true
        · simp only [parseLines, hH, hO, hC, if_true] at hok
          obtain ⟨e, -, hok⟩ := bind_eq_ok hok
          exact ih _ _ _ _ hok hacc
        · by_cases hR : rowIs (lineFields line) ASSAY_ROW = true
          · simp only [parseLines, hH, hO, hC, hR, if_true] at hok
            obtain ⟨nm, -, hok⟩ := bind_eq_ok hok
            obtain ⟨v, -, hok⟩ := bind_eq_ok hok
            obtain ⟨u, -, hok⟩ := bind_eq_ok hok
            exact ih _ _ _ _ hok hacc
          · simp only [parseLines, hH, hO, hC, hR] at hok
            exact ih _ _ _ _ hok hacc

/-- If no remaining line dispatches as a comment/error (`C`) or a result
(`R`) line, the loop never grows the accumulated record list: the
in-progress record stays empty and every flush discards it. -/
theorem parseLines_noCR (group : Str) :
    ∀ (lines : List Str) (sid : Nat) (sample : Sample) (samples out : List Sample),
    (∀ l ∈ lines, rowIs (lineFields l) ERROR_ROW = false ∧
      rowIs (lineFields l) ASSAY_ROW = false) →
    sample.assays = [] → sample.errors = [] →
    parseLines group lines sid sample samples = Except.ok out →
    out = samples := by
  intro lines
  induction lines with
  | nil =>
    intro sid sample samples out _ hA hE hok
    simp only [parseLines, sampleNonEmpty, hA, hE, List.isEmpty_nil, Bool.not_true,
      Bool.or_self, if_false, Except.ok.injEq] at hok
    exact hok.symm
  | cons line rest ih =>
    intro sid sample samples out hlines hA hE hok
    have hline := hlines line (by simp)
    have hrest : ∀ l ∈ rest, rowIs (lineFields l) ERROR_ROW = false ∧
        rowIs (lineFields l) ASSAY_ROW = false :=
      fun l hl => hlines l (by simp [hl])
    by_cases hH : rowIs (lineFields line) HEADER_ROW = true
    · simp only [parseLines, hH, if_true, sampleNonEmpty, hA, hE, List.isEmpty_nil,
        Bool.not_true, Bool.or_self, if_false] at hok
      obtain ⟨t, -, hok⟩ := bind_eq_ok hok
      exact ih _ _ _ _ hrest rfl rfl hok
    · by_cases hO : rowIs (lineFields line) NAME_ROW = true
      · simp only [parseLines, hH, hO, if_true] at hok
        obtain ⟨n1, -, hok⟩ := bind_eq_ok hok
        obtain ⟨n2, -, hok⟩ := bind_eq_ok hok
        obtain ⟨ty, -, hok⟩ := bind_eq_ok hok
        exact ih _ _ _ _ hrest (by exact hA) (by exact hE) hok
      · have hC : ¬ rowIs (lineFields line) ERROR_ROW = true := by
          simp [hline.1]
        have hR : ¬ rowIs (lineFields line) ASSAY_ROW = true := by
          simp [hline.2]
        simp only [parseLines, hH, hO, hC, hR] at hok
        exact ih _ _ _ _ hrest hA hE hok

/-- C4: every record retained by `parse_message` has at least one assay
or at least one error (a header-only stub, and the final in-progress
record when empty, are discarded); a message none of whose lines
dispatches as a `C` or `R` line — i.e. one yielding zero assays and zero
errors across all its records — produces the empty record list. -/
theorem c4_retention (message : List Str) (group : Str) (samples : List Sample)
    (h : parse_message message group = Except.ok samples) :
    (∀ r ∈ samples, r.assays ≠ [] ∨ r.errors ≠ []) ∧
    ((∀ l ∈ message, rowIs (lineFields l) ERROR_ROW = false ∧
        rowIs (lineFields l) ASSAY_ROW = false) → samples = []) := by
  constructor
  · intro r hr
    have hne := parseLines_keep group message 0 (newSample group 0) [] samples h
      (by intro r hr; exact absurd hr (List.not_mem_nil r)) r hr
    simp only [sampleNonEmpty, Bool.or_eq_true, Bool.not_eq_true',
      List.isEmpty_eq_false] at hne
    exact hne
  · intro hnone
    exact parseLines_noCR group message 0 (newSample group 0) [] samples hnone rfl rfl h

/-- Witness for `c4_retention` on the concrete message `msg5` (its O
line carries no assays or errors and starts no record; the single
retained record holds two assays). -/
theorem c4_retention_witness :
    (∀ r ∈ [rec5], r.assays ≠ [] ∨ r.errors ≠ []) ∧
    ((∀ l ∈ msg5, rowIs (lineFields l) ERROR_ROW = false ∧
        rowIs (lineFields l) ASSAY_ROW = false) → [rec5] = []) :=
  c4_retention msg5 (('g') :: []) [rec5] rfl

/-- A step only finishes a message on an empty chunk, with the empty-run
counter already at least 2 and a non-empty accumulator. -/
theorem framerStep_finished_some (s : FramerState) (c : Chunk) (m : List Chunk)
    (h : (framerStep s c).finished = some m) :
    c = [] ∧ 2 ≤ s.blank_line_count ∧ m = s.message ∧ s.message ≠ [] := by
  cases c with
  | cons x xs =>
    rw [framerStep_data s _ (by simp)] at h
    simp at h
  | nil =>
    by_cases h3 : s.blank_line_count + 1 < 3
    · rw [framerStep_blank_low s h3] at h
      simp at h
    · by_cases hm : s.message = []
      · have hstep : framerStep s [] = ⟨⟨s.message, s.blank_line_count + 1⟩, none, none⟩ := by
          simp [framerStep, h3, hm]
        rw [hstep] at h
        simp at h
      · rw [framerStep_finish s h3 hm] at h
        simp only [Option.some.injEq] at h
        exact ⟨rfl, by omega, h.symm, hm⟩

/-- An empty chunk always increments the run counter. -/
theorem framerStep_blank_empty (s : FramerState) :
    (framerStep s []).state.blank_line_count = s.blank_line_count + 1 := by
  by_cases h3 : s.blank_line_count + 1 < 3
  · rw [framerStep_blank_low s h3]
  · by_cases hm : s.message = []
    · simp [framerStep, h3, hm]
    · rw [framerStep_finish s h3 hm]

/-- A data chunk resets the run counter. -/
theorem framerStep_blank_data (s : FramerState) (c : Chunk) (h : c ≠ []) :
    (framerStep s c).state.blank_line_count = 0 := by
  rw [framerStep_data s c h]

/-- Whenever the framing loop finishes a message at step `i`, the chunk
at step `i` is empty, so are the two chunks before it (when the run
started inside `cs`), and at least two empty steps preceded it counting
the starting run counter. -/
theorem framerOutputs_three_empties :
    ∀ (cs : List Chunk) (s : FramerState) (i : Nat) (m : List Chunk),
    (framerOutputs s cs)[i]? = some (some m) →
    cs[i]? = some ([] : Chunk) ∧
    (1 ≤ i → cs[i - 1]? = some ([] : Chunk)) ∧
    (2 ≤ i → cs[i - 2]? = some ([] : Chunk)) ∧
    2 ≤ i + s.blank_line_count := by
  intro cs
  induction cs with
  | nil =>
    intro s i m h
    simp [framerOutputs] at h
  | cons c cs' ih =>
    intro s i m h
    rw [framerOutputs] at h
    cases i with
    | zero =>
      simp only [List.getElem?_cons_zero, Option.some.injEq] at h
      obtain ⟨hc, hblank, -, -⟩ := framerStep_finished_some s c m h
      subst hc
      refine ⟨by simp, ?_, ?_, by omega⟩
      · intro h1; exact absurd h1 (by omega)
      · intro h2; exact absurd h2 (by omega)
    | succ j =>
      rw [List.getElem?_cons_succ] at h
      obtain ⟨g1, g2, g3, g4⟩ := ih _ j m h
      refine ⟨by simpa using g1, ?_, ?_, ?_⟩
      · intro _
        cases j with
        | zero =>
          by_cases hc : c = []
          · simp [hc]
          · rw [framerStep_blank_data s c hc] at g4
            exact absurd g4 (by omega)
        | succ k =>
          simpa using g2 (by omega)
      · intro h2
        cases j with
        | zero => exact absurd h2 (by omega)
        | succ k =>
          cases k with
          | zero =>
            by_cases hc : c = []
            · simp [hc]
            · rw [framerStep_blank_data s c hc] at g4
              exact absurd g4 (by omega)
          | succ k2 =>
            have h3 := g3 (by omega)
            simpa using h3
      · by_cases hc : c = []
        · subst hc
          have hb := framerStep_blank_empty s
          omega
        · have hb := framerStep_blank_data s c hc
          omega

/-- C3: exactly 3 consecutive empty chunks after the last non-empty
chunk terminate a message.  (1) From the initial state, a message is
finished at step `i` only when `i ≥ 2` and the chunks at steps `i`,
`i-1`, `i-2` are all empty — never before the third consecutive empty
chunk.  (2) From any in-progress message (non-empty accumulator, run
counter 0, i.e. just after a data chunk), two empty chunks followed by a
non-empty chunk finish nothing: the counter resets to 0 and the chunk is
appended to the same message.  (3) From the same situation, two empty
chunks finish nothing, and exactly three finish exactly that message. -/
theorem c3_threshold :
    (∀ (cs : List Chunk) (i : Nat) (m : List Chunk),
      (framerOutputs framerInit cs)[i]? = some (some m) →
      2 ≤ i ∧ cs[i]? = some ([] : Chunk) ∧ cs[i - 1]? = some ([] : Chunk) ∧
        cs[i - 2]? = some ([] : Chunk)) ∧
    (∀ (msg : List Chunk) (c : Chunk), msg ≠ [] → c ≠ [] →
      runFramer ⟨msg, 0⟩ [[], [], c] = ⟨⟨msg ++ [c], 0⟩, [], []⟩) ∧
    (∀ msg : List Chunk, msg ≠ [] →
      (runFramer ⟨msg, 0⟩ [[], []]).finished = [] ∧
      (runFramer ⟨msg, 0⟩ [[], [], []]).finished = [msg]) := by
  refine ⟨?_, ?_, ?_⟩
  · intro cs i m h
    obtain ⟨g1, g2, g3, g4⟩ := framerOutputs_three_empties cs framerInit i m h
    have hi : 2 ≤ i := by
      have : (framerInit).blank_line_count = 0 := rfl
      omega
    exact ⟨hi, g1, g2 (by omega), g3 hi⟩
  · intro msg c hmsg hc
    have s1 := framerStep_blank_low ⟨msg, 0⟩ (by show 0 + 1 < 3; omega)
    have s2 := framerStep_blank_low ⟨msg, 1⟩ (by show 1 + 1 < 3; omega)
    have s3 := framerStep_data ⟨msg, 2⟩ c hc
    simp only [FramerState.mk.injEq] at s1 s2 s3
    simp [runFramer, s1, s2, s3]
  · intro msg hmsg
    have s1 := framerStep_blank_low ⟨msg, 0⟩ (by show 0 + 1 < 3; omega)
    have s2 := framerStep_blank_low ⟨msg, 1⟩ (by show 1 + 1 < 3; omega)
    have s3 := framerStep_finish ⟨msg, 2⟩ (by show ¬ 2 + 1 < 3; omega) hmsg
    constructor
    · simp [runFramer, s1, s2]
    · simp [runFramer, s1, s2, s3]

/-- Witness for `c3_threshold` at a concrete chunk sequence: one data
chunk then three empty chunks (finish at step 3), and the two concrete
scenario parts at the one-line message `[chunkX]`. -/
theorem c3_threshold_witness :
    (2 ≤ 3 ∧ [chunkX, [], [], []][3]? = some ([] : Chunk) ∧
      [chunkX, [], [], []][2]? = some ([] : Chunk) ∧
      [chunkX, [], [], []][1]? = some ([] : Chunk)) ∧
    runFramer ⟨[chunkX], 0⟩ [[], [], chunkX] = ⟨⟨[chunkX, chunkX], 0⟩, [], []⟩ ∧
    (runFramer ⟨[chunkX], 0⟩ [[], []]).finished = [] ∧
    (runFramer ⟨[chunkX], 0⟩ [[], [], []]).finished = [[chunkX]] := by
  refine ⟨?_, ?_, ?_⟩
  · exact c3_threshold.1 [chunkX, [], [], []] 3 [chunkX] rfl
  · exact c3_threshold.2.1 [chunkX] chunkX (by simp) (by simp [chunkX])
  · exact c3_threshold.2.2 [chunkX] (by simp)

/-- Setting a key makes it look up to the new value (whether it was
present or is appended). -/
theorem odLookup_odSet_self {β : Type} (k : Str) (v : β) (m : List (Str × β)) :
    odLookup k (odSet k v m) = some v := by
  induction m with
  | nil => simp [odSet, odLookup]
  | cons kv rest ih =>
    obtain ⟨k', v'⟩ := kv
    by_cases h : k' = k
    · simp [odSet, odLookup, h]
    · simp [odSet, odLookup, h, ih]

/-- Setting one key leaves the lookup of any other key unchanged. -/
theorem odLookup_odSet_other {β : Type} (a k : Str) (v : β) (m : List (Str × β))
    (h : k ≠ a) :
    odLookup a (odSet k v m) = odLookup a m := by
  induction m with
  | nil => simp [odSet, odLookup, h]
  | cons kv rest ih =>
    obtain ⟨k', v'⟩ := kv
    by_cases h' : k' = k
    · subst h'
      simp [odSet, odLookup, h]
    · by_cases h2 : k' = a
      · subst h2
        simp [odSet, odLookup, h', Ne.symm h]
      · simp [odSet, odLookup, h', h2, ih]

theorem odLookup_append_of_none {β : Type} (a : Str) (m l : List (Str × β))
    (h : odLookup a m = none) : odLookup a (m ++ l) = odLookup a l := by
  induction m with
  | nil => simp
  | cons kv rest ih =>
    obtain ⟨k', v'⟩ := kv
    by_cases h2 : k' = a
    · simp [odLookup, h2] at h
    · simp only [odLookup, h2, if_false] at h
      simp only [List.cons_append, odLookup, h2, if_false]
      exact ih h

theorem odLookup_append_of_some {β : Type} (a : Str) (m l : List (Str × β)) (w : β)
    (h : odLookup a m = some w) : odLookup a (m ++ l) = some w := by
  induction m with
  | nil => simp [odLookup] at h
  | cons kv rest ih =>
    obtain ⟨k', v'⟩ := kv
    by_cases h2 : k' = a
    · simp only [odLookup, h2, if_true] at h
      simp only [List.cons_append, odLookup, h2, if_true]
      exact h
    · simp only [odLookup, h2, if_false] at h
      simp only [List.cons_append, odLookup, h2, if_false]
      exact ih h

theorem unitsSeenPairs_cons_hit (a : Str) (asy : Assay) (l : List (Str × Assay)) :
    unitsSeenPairs a ((a, asy) :: l) = asy.units :: unitsSeenPairs a l := by
  simp [unitsSeenPairs, List.filter]

theorem unitsSeenPairs_cons_miss (a k : Str) (asy : Assay) (l : List (Str × Assay))
    (h : k ≠ a) :
    unitsSeenPairs a ((k, asy) :: l) = unitsSeenPairs a l := by
  have hb : (k == a) = false := by simp [h]
  simp [unitsSeenPairs, List.filter, hb]

/-- The unit-discovery fold, characterised per key: folding a pair list
into any accumulator turns the key's entry into `unitResult` of its
current entry and the units strings the list reports for the key. -/
theorem unitsFold_charac (a : Str) :
    ∀ (l : List (Str × Assay)) (acc : List (Str × UnitsCell)),
    odLookup a (l.foldl unitStep acc) =
      unitResult (odLookup a acc) (unitsSeenPairs a l) := by
  intro l
  induction l with
  | nil =>
    intro acc
    simp only [List.foldl_nil, unitsSeenPairs, List.filter_nil, List.map_nil]
    cases h : odLookup a acc with
    | none => simp [unitResult]
    | some w => cases w <;> simp [unitResult]
  | cons kv l' ih =>
    intro acc
    rw [List.foldl_cons, ih]
    obtain ⟨k, asy⟩ := kv
    by_cases hk : k = a
    · subst hk
      rw [unitsSeenPairs_cons_hit]
      cases hcur : odLookup k acc with
      | none =>
        simp only [unitStep, hcur]
        rw [odLookup_append_of_none k acc _ hcur]
        simp [odLookup, unitResult]
      | some w =>
        cases w with
        | units u =>
          by_cases hu : u = asy.units
          · simp only [unitStep, hcur, hu, if_true]
            simp [unitResult, List.all_cons]
          · simp only [unitStep, hcur, hu, if_false]
            rw [odLookup_odSet_self]
            have hne : (asy.units == u) = false := by
              simp only [beq_eq_false_iff_ne, ne_eq]
              exact fun hcontra => hu hcontra.symm
            simp [unitResult, List.all_cons, hne]
        | odd =>
          simp only [unitStep, hcur]
          rw [odLookup_odSet_self]
          simp [unitResult]
    · rw [unitsSeenPairs_cons_miss a k asy l' hk]
      have hstep : odLookup a (unitStep acc (k, asy)) = odLookup a acc := by
        unfold unitStep
        cases hcur : odLookup k acc with
        | none =>
          simp only
          cases hacc : odLookup a acc with
          | none =>
            rw [odLookup_append_of_none a acc _ hacc]
            simp [odLookup, hk]
          | some w => exact odLookup_append_of_some a acc _ w hacc
        | some w =>
          cases w with
          | units u =>
            by_cases hu : u = asy.units
            · simp [hu]
            · simp only [hu, if_false]
              exact odLookup_odSet_other a k _ acc hk
          | odd => exact odLookup_odSet_other a k _ acc hk
      rw [hstep]

/-- The nested discovery loop is the fold over all pairs in traversal
order. -/
theorem discoverUnits_eq_foldl_allPairs (rows : List Sample) :
    discoverUnits rows = (allPairs rows).foldl unitStep [] := by
  suffices h : ∀ acc, rows.foldl (fun acc row => row.assays.foldl unitStep acc) acc
      = (allPairs rows).foldl unitStep acc from h []
  induction rows with
  | nil => intro acc; rfl
  | cons r rest ih =>
    intro acc
    rw [show allPairs (r :: rest) = r.assays ++ allPairs rest from rfl,
      List.foldl_append, List.foldl_cons]
    exact ih _

/-- C6: in assay-column discovery, each assay's first-seen units string
is its canonical unit; any later differing units string for the same
assay turns the entry into the odd `???` marker — never either original
string — whatever the order of the conflicting records.  The discovered
entry for a name is exactly: its first reported units string if every
later report agrees, the odd marker if any disagrees; the second header
row renders entries in place, the odd marker as an Odd `???` cell. -/
theorem c6_unit_conflict :
    (∀ (rows : List Sample) (a : Str),
      odLookup a (discoverUnits rows) =
        match unitsSeen a rows with
        | [] => none
        | u :: us =>
          some (if us.all (fun w => w == u) then UnitsCell.units u
            else UnitsCell.odd)) ∧
    unitsHeaderCell UnitsCell.odd = Cell.odd (("???").data) ∧
    (∀ rows : List Sample, (build_table rows)[1]? =
      some (List.replicate 6 (Cell.plain none) ++
        (discoverUnits rows).map (fun kv => unitsHeaderCell kv.2))) := by
  refine ⟨?_, rfl, fun rows => by simp [build_table, List.replicate]⟩
  intro rows a
  rw [discoverUnits_eq_foldl_allPairs, unitsFold_charac a (allPairs rows) []]
  cases h : unitsSeen a rows with
  | nil =>
    rw [show unitsSeenPairs a (allPairs rows) = unitsSeen a rows from rfl, h]
    simp [unitResult, odLookup]
  | cons u us =>
    rw [show unitsSeenPairs a (allPairs rows) = unitsSeen a rows from rfl, h]
    simp [unitResult, odLookup]

/-- One assay cell per discovered column. -/
theorem assayCells_fst_length (cols : List (Str × UnitsCell)) (r : Sample) :
    (assayCells cols r).1.length = cols.length := by
  induction cols with
  | nil => rfl
  | cons kv rest ih =>
    obtain ⟨k, u⟩ := kv
    simp [assayCells, ih]

/-- The `questionable_assays` list collected while emitting a row is
exactly the columns whose raw value for this record exists, is
non-empty, and starts with `?`. -/
theorem assayCells_snd_eq_flagged (cols : List (Str × UnitsCell)) (r : Sample) :
    (assayCells cols r).2 = flaggedNames cols r := by
  induction cols with
  | nil => rfl
  | cons kv rest ih =>
    obtain ⟨k, u⟩ := kv
    cases hv : odLookup k r.assays with
    | none =>
      simp [assayCells, flaggedNames, List.filterMap_cons, qualityCell, hv, ih]
    | some asy =>
      by_cases hq : asy.value ≠ [] ∧ asy.value.take 1 = ['?']
      · simp [assayCells, flaggedNames, List.filterMap_cons, qualityCell, hv, hq, ih]
      · by_cases h4 : asy.value = ("****").data
        · simp [assayCells, flaggedNames, List.filterMap_cons, qualityCell, hv, hq, h4, ih]
        · simp [assayCells, flaggedNames, List.filterMap_cons, qualityCell, hv, hq, h4, ih]

/-- Dropping a data row's leading identity and assay cells leaves
exactly its error cells followed by the optional odd-summary cell. -/
theorem buildRow_drop (cols : List (Str × UnitsCell)) (r : Sample) :
    (buildRow cols r).drop (6 + cols.length) =
      r.errors.map (fun e => Cell.err (some e)) ++
        (if flaggedNames cols r = [] then []
         else [Cell.odd (oddSummary (flaggedNames cols r))]) := by
  simp only [buildRow]
  rw [List.append_assoc _ (r.errors.map (fun e => Cell.err (some e)))]
  rw [List.drop_left' (by simp [assayCells_fst_length]; omega)]
  rw [assayCells_snd_eq_flagged]
  by_cases hq : flaggedNames cols r = []
  · simp [hq]
  · simp [hq, List.isEmpty_iff]

/-- A data row's length: 6 identity cells, one cell per column, one per
error, and one more exactly when some assay was flagged. -/
theorem buildRow_length (cols : List (Str × UnitsCell)) (r : Sample) :
    (buildRow cols r).length = 6 + cols.length + r.errors.length +
      (if flaggedNames cols r = [] then 0 else 1) := by
  simp only [buildRow, List.length_append, List.length_map, assayCells_fst_length,
    assayCells_snd_eq_flagged]
  by_cases hq : flaggedNames cols r = []
  · simp [hq]
    try omega
  · simp [hq, List.isEmpty_iff]
    try omega

/-- C7, amended: every data row in which at least one assay value was
flagged (raw value starting with `?`) gets exactly one trailing summary
cell after its error cells, and that cell is Odd-tagged (an `OddResult`,
not a Plain cell as claimed) listing all flagged assay names of the row;
a row with no flagged assay gets no summary cell at all. -/
theorem c7_amended_summary (rs : List Sample) (i : Nat) (r : Sample)
    (h : rs[i]? = some r) :
    ∃ orow, (build_table rs)[i + 2]? = some orow ∧
      orow.drop (6 + (discoverUnits rs).length) =
        r.errors.map (fun e => Cell.err (some e)) ++
          (if flaggedNames (discoverUnits rs) r = [] then []
           else [Cell.odd (oddSummary (flaggedNames (discoverUnits rs) r))]) ∧
      orow.length = 6 + (discoverUnits rs).length + r.errors.length +
        (if flaggedNames (discoverUnits rs) r = [] then 0 else 1) := by
  refine ⟨buildRow (discoverUnits rs) r, ?_, buildRow_drop _ r, buildRow_length _ r⟩
  simp [build_table, List.getElem?_map, h]

/-- Witness for `c7_amended_summary` at the one-record list `[recQ]`
(one flagged assay, no errors). -/
theorem c7_amended_summary_witness :
    ∃ orow, (build_table [recQ])[0 + 2]? = some orow ∧
      orow.drop (6 + (discoverUnits [recQ]).length) =
        recQ.errors.map (fun e => Cell.err (some e)) ++
          (if flaggedNames (discoverUnits [recQ]) recQ = [] then []
           else [Cell.odd (oddSummary (flaggedNames (discoverUnits [recQ]) recQ))]) ∧
      orow.length = 6 + (discoverUnits [recQ]).length + recQ.errors.length +
        (if flaggedNames (discoverUnits [recQ]) recQ = [] then 0 else 1) :=
  c7_amended_summary [recQ] 0 recQ rfl

theorem exceptMap_map {α β γ : Type} (f : α → β) (g : β → γ) (x : Except Unit α) :
    (x.map f).map g = x.map (fun a => g (f a)) := by
  cases x <;> rfl

theorem pyGet_eq_ok {α : Type} {l : List α} {i : Nat} {v : α}
    (h : pyGet l i = Except.ok v) : l[i]? = some v := by
  unfold pyGet at h
  cases hx : l[i]? with
  | none =>
    rw [hx] at h
    simp at h
  | some w =>
    rw [hx] at h
    simp only [Except.ok.injEq] at h
    exact congrArg some h

/-- The parse loop only ever appends to the accumulated record list:
running it from any accumulator equals running it from the empty one
and prefixing the accumulator. -/
theorem parseLines_acc (group : Str) :
    ∀ (lines : List Str) (sid : Nat) (sample : Sample) (samples : List Sample),
    parseLines group lines sid sample samples =
      (parseLines group lines sid sample []).map (fun out => samples ++ out) := by
  intro lines
  induction lines with
  | nil =>
    intro sid sample samples
    simp only [parseLines, Except.map]
    by_cases hk : sampleNonEmpty sample = true
    · simp [hk]
    · simp [hk]
  | cons line rest ih =>
    intro sid sample samples
    by_cases hH : rowIs (lineFields line) HEADER_ROW = true
    · simp only [parseLines, hH, if_true]
      cases hpg : pyGet (lineFields line) HEADER_ROW_TIME with
      | error e =>
        cases e
        simp [exceptBind_err, Except.map]
      | ok t =>
        simp only [exceptBind_ok]
        by_cases hk : sampleNonEmpty sample = true
        · simp only [hk, if_true, List.nil_append]
          rw [ih _ _ (samples ++ [sample]), ih _ _ [sample], exceptMap_map]
          have hfun : (fun out => (samples ++ [sample]) ++ out) =
              (fun out => samples ++ ([sample] ++ out)) :=
            funext fun out => by simp
          rw [hfun]
        · simp only [hk, if_false]
          exact ih _ _ _
    · by_cases hO : rowIs (lineFields line) NAME_ROW = true
      · simp only [parseLines, hH, hO, if_true]
        cases h1 : pyGet (lineFields line) NAME_ROW_NAME_1 with
        | error e =>
          cases e
          simp [exceptBind_err, Except.map]
        | ok n1 =>
          simp only [exceptBind_ok]
          cases h2 : pyGet (lineFields line) NAME_ROW_NAME_2 with
          | error e =>
            cases e
            simp [exceptBind_err, Except.map]
          | ok n2 =>
            simp only [exceptBind_ok]
            cases h3 : pyGet (lineFields line) NAME_ROW_TYPE with
            | error e =>
              cases e
              simp [exceptBind_err, Except.map]
            | ok ty =>
              simp only [exceptBind_ok]
              exact ih _ _ _
      · by_cases hC : rowIs (lineFields line) ERROR_ROW = true
        · simp only [parseLines, hH, hO, hC, if_true]
          cases h1 : pyGet (lineFields line) ERROR_ROW_MESSAGE with
          | error e =>
            cases e
            simp [exceptBind_err, Except.map]
          | ok e1 =>
            simp only [exceptBind_ok]
            exact ih _ _ _
        · by_cases hR : rowIs (lineFields line) ASSAY_ROW = true
          · simp only [parseLines, hH, hO, hC, hR, if_true]
            cases h1 : pyGet (lineFields line) ASSAY_ROW_NAME with
            | error e =>
              cases e
              simp [exceptBind_err, Except.map]
            | ok nm =>
              simp only [exceptBind_ok]
              cases h2 : pyGet (lineFields line) ASSAY_ROW_VALUE with
              | error e =>
                cases e
                simp [exceptBind_err, Except.map]
              | ok v =>
                simp only [exceptBind_ok]
                cases h3 : pyGet (lineFields line) ASSAY_ROW_UNITS with
                | error e =>
                  cases e
                  simp [exceptBind_err, Except.map]
                | ok u =>
                  simp only [exceptBind_ok]
                  exact ih _ _ _
          · simp only [parseLines, hH, hO, hC, hR]
            exact ih _ _ _

/-- The id bookkeeping of the parse loop, from an empty accumulator: the
returned records carry strictly increasing ids between `sid` and
`sid` + number of header lines; a record keeping the id `sid` is the
flushed in-progress record (same timestamp, retained only if it was
non-empty or a stray C/R line preceded the first header); a record with
a larger id `n` was started by the `(n - sid)`-th header line and
carries that line's decoded time field. -/
theorem parseLines_ids (group : Str) :
    ∀ (lines : List Str) (sid : Nat) (sample : Sample) (out : List Sample),
    sample.id = sid →
    parseLines group lines sid sample [] = Except.ok out →
    List.Chain' (· < ·) (out.map Sample.id) ∧
    (∀ r ∈ out, sid ≤ r.id ∧ r.id ≤ sid + headerCount lines) ∧
    (∀ r ∈ out, r.id = sid → r.timestamp = sample.timestamp) ∧
    (∀ r ∈ out, sid < r.id →
      ∃ row, (headerRows lines)[r.id - sid - 1]? = some row ∧
        ∃ t, row[HEADER_ROW_TIME]? = some t ∧
          r.timestamp = some (parse_timestamp t)) ∧
    (∀ r ∈ out, r.id = sid → sampleNonEmpty sample = true ∨
      ∃ l ∈ strayLeadIn lines,
        (rowIs (lineFields l) ERROR_ROW = true ∨
          rowIs (lineFields l) ASSAY_ROW = true)) := by
  intro lines
  induction lines with
  | nil =>
    intro sid sample out hsid hok
    simp only [parseLines, Except.ok.injEq, List.nil_append] at hok
    subst hok
    by_cases hk : sampleNonEmpty sample = true
    · simp only [hk, if_true]
      refine ⟨List.chain'_singleton _, ?_, ?_, ?_, ?_⟩
      · intro r hr
        simp only [List.mem_singleton] at hr
        subst hr
        exact ⟨le_of_eq hsid.symm, by omega⟩
      · intro r hr _
        simp only [List.mem_singleton] at hr
        subst hr
        rfl
      · intro r hr hlt
        simp only [List.mem_singleton] at hr
        subst hr
        rw [hsid] at hlt
        exact absurd hlt (by omega)
      · intro r hr _
        exact Or.inl trivial
    · simp only [hk, if_false]
      exact ⟨by simp, by simp, by simp, by simp, by simp⟩
  | cons line rest ih =>
    intro sid sample out hsid hok
    by_cases hH : rowIs (lineFields line) HEADER_ROW = true
    · simp only [parseLines, hH, if_true, List.nil_append] at hok
      obtain ⟨t, hpg, hok⟩ := bind_eq_ok hok
      rw [parseLines_acc] at hok
      cases hcore : parseLines group rest (sid + 1)
          { newSample group (sid + 1) with
            timestamp := some (parse_timestamp t) } [] with
      | error e =>
        rw [hcore] at hok
        simp [Except.map] at hok
      | ok out' =>
        rw [hcore] at hok
        simp only [Except.map, Except.ok.injEq] at hok
        subst hok
        obtain ⟨Q1, Q2, Q3, Q4, Q5⟩ := ih (sid + 1) _ out' rfl hcore
        have hhr : headerRows (line :: rest) = lineFields line :: headerRows rest := by
          simp [headerRows, hH]
        have hhc : headerCount (line :: rest) = headerCount rest + 1 := by
          simp [headerCount, hhr]
        have hrow13 : (lineFields line)[HEADER_ROW_TIME]? = some t := pyGet_eq_ok hpg
        have houtP4 : ∀ r ∈ out', sid < r.id →
            ∃ row, (headerRows (line :: rest))[r.id - sid - 1]? = some row ∧
              ∃ t2, row[HEADER_ROW_TIME]? = some t2 ∧
                r.timestamp = some (parse_timestamp t2) := by
          intro r hr hlt
          rcases Nat.lt_or_ge (sid + 1) r.id with hgt | hle
          · obtain ⟨row, hidx, t', h13, hts⟩ := Q4 r hr hgt
            refine ⟨row, ?_, t', h13, hts⟩
            have heq : r.id - sid - 1 = (r.id - (sid + 1) - 1) + 1 := by omega
            rw [hhr, heq, List.getElem?_cons_succ]
            exact hidx
          · have hid : r.id = sid + 1 := by
              have := (Q2 r hr).1
              omega
            refine ⟨lineFields line, ?_, t, hrow13, ?_⟩
            · have heq : r.id - sid - 1 = 0 := by omega
              rw [hhr, heq]
              simp
            · exact Q3 r hr hid
        by_cases hk : sampleNonEmpty sample = true
        · simp only [hk, if_true, List.singleton_append]
          refine ⟨?_, ?_, ?_, ?_, ?_⟩
          · rw [List.map_cons, List.chain'_cons']
            refine ⟨?_, Q1⟩
            intro y hy
            rw [List.head?_map] at hy
            cases hh : out'.head? with
            | none =>
              rw [hh] at hy
              simp at hy
            | some r =>
              rw [hh] at hy
              simp only [Option.map_some', Option.mem_def, Option.some.injEq] at hy
              subst hy
              have hr : r ∈ out' := List.mem_of_mem_head? (by rw [hh]; rfl)
              have := (Q2 r hr).1
              rw [hsid]
              omega
          · intro r hr
            rcases List.mem_cons.1 hr with hr | hr
            · subst hr
              refine ⟨le_of_eq hsid.symm, ?_⟩
              rw [hsid]
              omega
            · have := Q2 r hr
              constructor <;> omega
          · intro r hr h0
            rcases List.mem_cons.1 hr with hr | hr
            · subst hr
              rfl
            · have := (Q2 r hr).1
              omega
          · intro r hr hlt
            rcases List.mem_cons.1 hr with hr | hr
            · subst hr
              rw [hsid] at hlt
              exact absurd hlt (by omega)
            · exact houtP4 r hr hlt
          · intro r hr h0
            rcases List.mem_cons.1 hr with hr | hr
            · subst hr
              exact Or.inl trivial
            · have := (Q2 r hr).1
              omega
        · simp only [hk, if_false, List.nil_append]
          refine ⟨Q1, ?_, ?_, houtP4, ?_⟩
          · intro r hr
            have := Q2 r hr
            constructor <;> omega
          · intro r hr h0
            have := (Q2 r hr).1
            omega
          · intro r hr h0
            have := (Q2 r hr).1
            omega
    · have hnotH : headerRows (line :: rest) = headerRows rest := by
        simp [headerRows, hH]
      have hhc : headerCount (line :: rest) = headerCount rest := by
        simp [headerCount, hnotH]
      have hstray : strayLeadIn (line :: rest) = line :: strayLeadIn rest := by
        simp [strayLeadIn, hH]
      have hlift : ∀ (S : Sample),
          (∀ r ∈ out, r.id = sid → sampleNonEmpty S = true ∨
            ∃ l ∈ strayLeadIn rest,
              (rowIs (lineFields l) ERROR_ROW = true ∨
                rowIs (lineFields l) ASSAY_ROW = true)) →
          sampleNonEmpty S = sampleNonEmpty sample →
          (∀ r ∈ out, r.id = sid → sampleNonEmpty sample = true ∨
            ∃ l ∈ strayLeadIn (line :: rest),
              (rowIs (lineFields l) ERROR_ROW = true ∨
                rowIs (lineFields l) ASSAY_ROW = true)) := by
        intro S hQ5 hSeq r hr h0
        rcases hQ5 r hr h0 with hne | ⟨l, hl, hcr⟩
        · left
          rw [← hSeq]
          exact hne
        · right
          exact ⟨l, by rw [hstray]; exact List.mem_cons_of_mem _ hl, hcr⟩
      by_cases hO : rowIs (lineFields line) NAME_ROW = true
      · simp only [parseLines, hH, hO, if_true] at hok
        obtain ⟨n1, -, hok⟩ := bind_eq_ok hok
        obtain ⟨n2, -, hok⟩ := bind_eq_ok hok
        obtain ⟨ty, -, hok⟩ := bind_eq_ok hok
        obtain ⟨Q1, Q2, Q3, Q4, Q5⟩ := ih sid _ out (by exact hsid) hok
        refine ⟨Q1, ?_, ?_, ?_, hlift _ Q5 rfl⟩
        · intro r hr
          have := Q2 r hr
          constructor <;> omega
        · intro r hr h0
          exact Q3 r hr h0
        · intro r hr hlt
          rw [hnotH]
          exact Q4 r hr hlt
      · by_cases hC : rowIs (lineFields line) ERROR_ROW = true
        · simp only [parseLines, hH, hO, hC, if_true] at hok
          obtain ⟨e1, -, hok⟩ := bind_eq_ok hok
          obtain ⟨Q1, Q2, Q3, Q4, Q5⟩ := ih sid _ out (by exact hsid) hok
          refine ⟨Q1, ?_, ?_, ?_, ?_⟩
          · intro r hr
            have := Q2 r hr
            constructor <;> omega
          · intro r hr h0
            exact Q3 r hr h0
          · intro r hr hlt
            rw [hnotH]
            exact Q4 r hr hlt
          · intro r hr h0
            right
            exact ⟨line, by rw [hstray]; exact List.mem_cons_self _ _, Or.inl hC⟩
        · by_cases hR : rowIs (lineFields line) ASSAY_ROW = true
          · simp only [parseLines, hH, hO, hC, hR, if_true] at hok
            obtain ⟨nm, -, hok⟩ := bind_eq_ok hok
            obtain ⟨v, -, hok⟩ := bind_eq_ok hok
            obtain ⟨u, -, hok⟩ := bind_eq_ok hok
            obtain ⟨Q1, Q2, Q3, Q4, Q5⟩ := ih sid _ out (by exact hsid) hok
            refine ⟨Q1, ?_, ?_, ?_, ?_⟩
            · intro r hr
              have := Q2 r hr
              constructor <;> omega
            · intro r hr h0
              exact Q3 r hr h0
            · intro r hr hlt
              rw [hnotH]
              exact Q4 r hr hlt
            · intro r hr h0
              right
              exact ⟨line, by rw [hstray]; exact List.mem_cons_self _ _, Or.inr hR⟩
          · simp only [parseLines, hH, hO, hC, hR] at hok
            obtain ⟨Q1, Q2, Q3, Q4, Q5⟩ := ih sid sample out hsid hok
            refine ⟨Q1, ?_, ?_, ?_, hlift sample Q5 rfl⟩
            · intro r hr
              have := Q2 r hr
              constructor <;> omega
            · intro r hr h0
              exact Q3 r hr h0
            · intro r hr hlt
              rw [hnotH]
              exact Q4 r hr hlt

/-- C8: the `sequenceId`s of the records `parse_message` retains are
strictly increasing in encounter order and bounded by the number of
header lines; every record with id `n ≥ 1` was started by the `n`-th
header line (it carries that line's decoded time field), so the records
started by the first, second, ... header line carry ids 1, 2, ...; and a
record carries id 0 only when some stray C- or R-dispatched line
precedes the message's first header line (the synthetic record 0). -/
theorem c8_sequence_ids (message : List Str) (group : Str) (samples : List Sample)
    (h : parse_message message group = Except.ok samples) :
    List.Chain' (· < ·) (samples.map Sample.id) ∧
    (∀ r ∈ samples, r.id ≤ headerCount message) ∧
    (∀ r ∈ samples, 1 ≤ r.id →
      ∃ row, (headerRows message)[r.id - 1]? = some row ∧
        ∃ t, row[HEADER_ROW_TIME]? = some t ∧
          r.timestamp = some (parse_timestamp t)) ∧
    (∀ r ∈ samples, r.id = 0 →
      ∃ l ∈ strayLeadIn message,
        (rowIs (lineFields l) ERROR_ROW = true ∨
          rowIs (lineFields l) ASSAY_ROW = true)) := by
  obtain ⟨Q1, Q2, Q3, Q4, Q5⟩ :=
    parseLines_ids group message 0 (newSample group 0) samples rfl h
  refine ⟨Q1, ?_, ?_, ?_⟩
  · intro r hr
    have := (Q2 r hr).2
    omega
  · intro r hr h1
    obtain ⟨row, hidx, t, h13, hts⟩ := Q4 r hr (by omega)
    refine ⟨row, ?_, t, h13, hts⟩
    have heq : r.id - 0 - 1 = r.id - 1 := by omega
    rw [← heq]
    exact hidx
  · intro r hr h0
    rcases Q5 r hr h0 with hne | hstray
    · exact absurd hne (by simp [sampleNonEmpty, newSample])
    · exact hstray

/-- Witness for `c8_sequence_ids` on the concrete message `msg5`: its
single retained record carries id 1 and the first header's time. -/
theorem c8_sequence_ids_witness :
    List.Chain' (· < ·) ([rec5].map Sample.id) ∧
    (∀ r ∈ [rec5], r.id ≤ headerCount msg5) ∧
    (∀ r ∈ [rec5], 1 ≤ r.id →
      ∃ row, (headerRows msg5)[r.id - 1]? = some row ∧
        ∃ t, row[HEADER_ROW_TIME]? = some t ∧
          r.timestamp = some (parse_timestamp t)) ∧
    (∀ r ∈ [rec5], r.id = 0 →
      ∃ l ∈ strayLeadIn msg5,
        (rowIs (lineFields l) ERROR_ROW = true ∨
          rowIs (lineFields l) ASSAY_ROW = true)) :=
  c8_sequence_ids msg5 (('g') :: []) [rec5] rfl

end Bioprofile
